import Mathlib

/-!
# RTA Trends Dashboard — verification of the natural-language spec

Shallow embedding of the two source files of `rtatrends/rta-trends-dashboard`:

* `src/app.py` — the Streamlit dashboard: load a historian CSV, filter rows by
  sidebar selections, scale feed-rate tags to MTPH, route each tag to a y-axis
  by string matching, and plot the raw rows of each (tag, equipment) group.
* `src/merge_factorytalk_clean.py` — the Colab merge script: clean each
  uploaded FactoryTalk CSV (title-case the headers, coerce `Time`/`Value`,
  derive `Tag` from `Name`, drop unparsable rows), concatenate, and sort by
  `Time`.

Dataframes are embedded as `List Row`; a pandas `NaN` cell in a string column
is `Option.none`; numeric values and timestamps are `ℚ`; fallible reads are
`Except`.
-/

/-! ## Data model (app.py)

A loaded row has the columns the dashboard touches: `Time`, `Tag_Group`,
`Equipment`, `Tag_Name`, `Value`, `Quality`.  String columns may hold NaN
(`none`); `Time` is parsed by `read_csv(parse_dates=["Time"])` and `Value` is
numeric in the merged file, so both are `ℚ` here. -/

structure Row where
  time : ℚ
  tagGroup : Option String
  equipment : Option String
  tagName : Option String
  value : ℚ
  quality : Option String
  deriving Repr, DecidableEq

/-- Sidebar selections feeding the filter mask (app.py lines 38–58):
date range bounds, three multiselects, and the quality checkbox. -/
structure Selection where
  selGroup : List String
  selEquip : List String
  selTags : List String
  startDt : ℚ
  endDt : ℚ
  qualityOkOnly : Bool
  deriving Repr, DecidableEq

/-- Pandas `Series.isin`: a NaN cell matches no list of actual strings. -/
def isinOpt (v : Option String) (l : List String) : Bool :=
  match v with
  | none => false
  | some s => l.contains s

/-- The mask of app.py lines 61–66: group, equipment and tag membership plus
the date-range bounds. -/
def baseMask (sel : Selection) (r : Row) : Bool :=
  isinOpt r.tagGroup sel.selGroup && isinOpt r.equipment sel.selEquip &&
    isinOpt r.tagName sel.selTags &&
    decide (sel.startDt ≤ r.time) && decide (r.time ≤ sel.endDt)

/-- Lines 67–68: `if quality_ok_only and "Quality" in df.columns: mask &=
df["Quality"].eq("Good")`.  `hasQualityCol` records whether the loaded frame
has a `Quality` column; a NaN quality cell never equals `"Good"`. -/
def rowMask (hasQualityCol : Bool) (sel : Selection) (r : Row) : Bool :=
  baseMask sel r &&
    (if sel.qualityOkOnly && hasQualityCol then r.quality == some "Good" else true)

/-- Line 70: `f = df.loc[mask, ...]` — the filtered frame. -/
def filterFrame (hasQualityCol : Bool) (sel : Selection) (df : List Row) : List Row :=
  df.filter (rowMask hasQualityCol sel)

/-! ## MTPH scaling (app.py lines 72–75) -/

/-- The three feed-related tags scaled to MTPH. -/
def mtphTags : List String := ["Feedrate", "Setpoint", "Rolling_Avg"]

/-- One pass of the loop body: `f.loc[f["Tag_Name"] == tag, "Value"] =
f.loc[f["Tag_Name"] == tag, "Value"] / 1000.0`. -/
def scaleFor (tag : String) (f : List Row) : List Row :=
  f.map fun r => if r.tagName == some tag then { r with value := r.value / 1000 } else r

/-- The loop `for tag in ["Feedrate", "Setpoint", "Rolling_Avg"]: ...`. -/
def scaleMTPH (f : List Row) : List Row :=
  mtphTags.foldl (fun acc t => scaleFor t acc) f

/-- Lines 72–75 including the `if not f.empty` guard. -/
def applyScaling (f : List Row) : List Row :=
  if f.isEmpty then f else scaleMTPH f

/-! ## Tag-routing helpers (app.py lines 78–90) -/

/-- `leadMatch nd hay`: `nd` is a leading run of `hay` (character lists). -/
def leadMatch : List Char → List Char → Bool
  | [], _ => true
  | _ :: _, [] => false
  | a :: as, b :: bs => a == b && leadMatch as bs

/-- `hasSub nd hay`: `nd` occurs contiguously somewhere in `hay` — Python's
`nd in hay` on strings. -/
def hasSub (nd : List Char) : List Char → Bool
  | [] => nd.isEmpty
  | c :: cs => leadMatch nd (c :: cs) || hasSub nd cs

/-- Python `k in tag` for strings. -/
def containsStr (nd s : String) : Bool :=
  hasSub nd.data s.data

/-- The percent-axis keyword list of `is_percent_tag`. -/
def percentKeys : List String :=
  ["PV", "CV", "OP", "Load", "Gate_Pos", "Level", "Percent", "LSH", "LSL"]

/-- app.py lines 78–81. -/
def is_percent_tag (tag : String) : Bool :=
  percentKeys.any fun k => containsStr k tag

/-- app.py lines 83–84. -/
def is_current (tag : String) : Bool :=
  containsStr "Current" tag

/-- app.py lines 86–87. -/
def is_speed (tag : String) : Bool :=
  containsStr "Speed" tag

/-- app.py lines 89–90: `tag in ["Feedrate", "Setpoint", "Rolling_Avg"]`. -/
def is_mtph (tag : String) : Bool :=
  mtphTags.contains tag

/-- The four y-axes of the Percent+MTPH overlay layout. -/
inductive Axis where
  | y | y2 | y3 | y4
  deriving Repr, DecidableEq

/-- The if/elif chain of app.py lines 128–139 that assigns each tag its
y-axis in Percent+MTPH overlay mode. -/
def routeAxis (tag : String) : Axis :=
  if is_percent_tag tag then Axis.y
  else if is_mtph tag then Axis.y2
  else if is_speed tag then Axis.y3
  else if is_current tag then Axis.y4
  else Axis.y2

/-- The unit string chosen alongside the axis (same if/elif chain). -/
def routeUnit (tag : String) : String :=
  if is_percent_tag tag then "%"
  else if is_mtph tag then "MTPH"
  else if is_speed tag then "m/s"
  else if is_current tag then "A"
  else ""

example : routeAxis "Gate_Pos_CMD" = Axis.y := by decide
example : routeAxis "Feedrate" = Axis.y2 := by decide
example : routeAxis "Belt_Speed" = Axis.y3 := by decide
example : routeAxis "Motor_Current" = Axis.y4 := by decide
example : routeAxis "Foo" = Axis.y2 := by decide

/-! ## Loading and sorting (app.py lines 13–28) -/

/-- Comparison by timestamp, the key of `df.sort_values("Time")`. -/
def timeLE (a b : Row) : Prop :=
  a.time ≤ b.time

instance : DecidableRel timeLE :=
  fun a b => inferInstanceAs (Decidable (a.time ≤ b.time))

instance : IsTotal Row timeLE :=
  ⟨fun a b => le_total a.time b.time⟩

instance : IsTrans Row timeLE :=
  ⟨fun _ _ _ hab hbc => le_trans hab hbc⟩

/-- `df.sort_values("Time").reset_index(drop=True)` (app.py line 25).  In
the list embedding the index is the list position, so `reset_index` is the
identity; the sort is any `Time`-ordered permutation. -/
def sortByTime (df : List Row) : List Row :=
  List.insertionSort timeLE df

/-- A failure of the CSV read: the remote branch raises via
`r.raise_for_status()` / `requests.get`, the local branch via
`pd.read_csv`. -/
inductive LoadError where
  | httpError (status : Nat)
  | readFailure (msg : String)
  deriving Repr, DecidableEq

/-- `load_data` (app.py lines 13–26).  The argument is the outcome of the
read that ran (remote fetch or local file).  The body has no try/except:
an exception from the read leaves `load_data` unhandled, so the error case
is returned as is; a successful read is sorted by `Time`. -/
def load_data (fetched : Except LoadError (List Row)) : Except LoadError (List Row) :=
  match fetched with
  | .error e => .error e
  | .ok df => .ok (sortByTime df)

/-! ## Sidebar widgets (app.py lines 31–58) -/

/-- The kinds of sidebar controls.  `resampler` stands for a resampling
control (a widget whose selection triggers time-based aggregation such as
`DataFrame.resample`); the constructor exists so its absence from the
actual sidebar can be stated. -/
inductive Widget where
  | dateInput (label : String)
  | multiselect (label : String)
  | checkbox (label : String)
  | radio (label : String)
  | resampler (label : String)
  deriving Repr, DecidableEq

/-- Every sidebar control app.py creates, in order (lines 38–58). -/
def sidebarWidgets : List Widget :=
  [Widget.dateInput "Date range",
   Widget.multiselect "Tag group",
   Widget.multiselect "Equipment",
   Widget.multiselect "Tag(s)",
   Widget.checkbox "Quality = Good only",
   Widget.radio "FactoryTalk overlay mode",
   Widget.checkbox "Lock percent axis to -100..0 (reversed)"]

/-- Recognises a resampling control. -/
def isResampler : Widget → Bool
  | Widget.resampler _ => true
  | _ => false

/-! ## Plotted series (app.py lines 126–151)

`f.groupby(["Tag_Name","Equipment"])` hands each trace the rows of one
(tag, equipment) pair in frame order; the trace plots `x=seg["Time"]`,
`y=seg["Value"]` with no aggregation. -/

/-- The rows of one groupby group, in frame order. -/
def segRows (tag equip : String) (f : List Row) : List Row :=
  f.filter fun r => r.tagName == some tag && r.equipment == some equip

/-- The (x, y) data of the trace drawn for one group. -/
def tracePoints (tag equip : String) (f : List Row) : List (ℚ × ℚ) :=
  (segRows tag equip f).map fun r => (r.time, r.value)

/-! ## Merge script (merge_factorytalk_clean.py) -/

/-- One raw row of an uploaded FactoryTalk CSV, after header title-casing:
the retained columns `Time`, `Name`, `Value`, `Quality` as exported text
(`Quality` may be absent or NaN). -/
structure FtRawRow where
  timeS : String
  nameS : String
  valueS : String
  qualityS : Option String
  deriving Repr, DecidableEq

/-- A separator of `re.split(r"[./]", full)`. -/
def isSepCh (c : Char) : Bool :=
  c == '.' || c == '/'

/-- `re.split(r"[./]", full)`: the maximal runs between `.`/`/` separators,
including empty runs. -/
def splitSegs : List Char → List (List Char)
  | [] => [[]]
  | c :: cs =>
    match splitSegs cs with
    | [] => [[]]
    | s :: rest => if isSepCh c then [] :: s :: rest else (c :: s) :: rest

/-- Python `str.strip()`: drop whitespace from both ends. -/
def stripWs (s : List Char) : List Char :=
  ((s.dropWhile Char.isWhitespace).reverse.dropWhile Char.isWhitespace).reverse

/-- `clean_name` (merge script lines 9–12): split on `.`/`/`, take the last
piece, strip it. -/
def clean_name (full : String) : String :=
  ⟨stripWs ((splitSegs full.data).getLastD [])⟩

example : clean_name "Plant.Area/FIC101.PV" = "PV" := by decide
example : clean_name "  Feedrate  " = "Feedrate" := by decide

/-- A row of a cleaned frame: `Time` and `Value` after `errors="coerce"`
parsing (`none` = NaT/NaN), plus the original `Name`, `Quality`, and the
derived `Tag`. -/
structure MergeRow where
  time : Option ℚ
  name : String
  value : Option ℚ
  quality : Option String
  tag : String
  deriving Repr, DecidableEq

/-- `clean_csv` (merge script lines 14–22): coerce `Time` and `Value`
(failures become `none`), derive `Tag` from `Name` via `clean_name`, then
`dropna(subset=['Time','Value'])`.  `parseTime`/`parseNum` are
`pd.to_datetime`/`pd.to_numeric` with `errors="coerce"`. -/
def clean_csv (parseTime parseNum : String → Option ℚ) (rows : List FtRawRow) :
    List MergeRow :=
  (rows.map fun r =>
      ({ time := parseTime r.timeS, name := r.nameS, value := parseNum r.valueS,
         quality := r.qualityS, tag := clean_name r.nameS } : MergeRow)).filter
    fun r => r.time.isSome && r.value.isSome

/-- Timestamp order on cleaned rows (all retained rows have `some` times). -/
def mergeTimeLE (a b : MergeRow) : Prop :=
  a.time.getD 0 ≤ b.time.getD 0

instance : DecidableRel mergeTimeLE :=
  fun a b => inferInstanceAs (Decidable (a.time.getD 0 ≤ b.time.getD 0))

instance : IsTotal MergeRow mergeTimeLE :=
  ⟨fun a b => le_total (a.time.getD 0) (b.time.getD 0)⟩

instance : IsTrans MergeRow mergeTimeLE :=
  ⟨fun _ _ _ hab hbc => le_trans hab hbc⟩

/-- Merge script lines 24–27: clean every uploaded CSV, concatenate with a
fresh index, sort by `Time`, reset the index. -/
def combined (parseTime parseNum : String → Option ℚ)
    (csvs : List (List FtRawRow)) : List MergeRow :=
  List.insertionSort mergeTimeLE ((csvs.map (clean_csv parseTime parseNum)).flatten)

/-! ## Gap-fill (modelled from the spec)

The spec credits the repository with "a short linear-interpolation-based
gap-fill for one sensor".  Neither file under `src/` contains it; it lives
in one of the other dashboard variants of the repository, so it is modelled
here from the spec's words. -/

/-- The latest known sample of a series prefix: rightmost `(t, some v)`. -/
def lastKnown : List (ℚ × Option ℚ) → Option (ℚ × ℚ)
  | [] => none
  | (t, v) :: rest =>
    match lastKnown rest with
    | some p => some p
    | none => match v with
              | some x => some (t, x)
              | none => none

/-- The earliest known sample of a series suffix: leftmost `(t, some v)`. -/
def firstKnown : List (ℚ × Option ℚ) → Option (ℚ × ℚ)
  | [] => none
  | (t, v) :: rest =>
    match v with
    | some x => some (t, x)
    | none => firstKnown rest

/-- The value at `t` on the line through `(t0, v0)` and `(t1, v1)`. -/
def lerpAt (t0 v0 t1 v1 t : ℚ) : ℚ :=
  v0 + (v1 - v0) * (t - t0) / (t1 - t0)

/-- Modelled from the spec: the fill for one missing sample — linear
interpolation between the neighbouring known samples, left missing when a
gap touches either end of the series. -/
def fillPoint (before after : List (ℚ × Option ℚ)) (t : ℚ) : Option ℚ :=
  match lastKnown before, firstKnown after with
  | some (t0, v0), some (t1, v1) => some (lerpAt t0 v0 t1 v1 t)
  | _, _ => none

/-- Recursion for `gapFill`: `before` is the already-visited prefix in its
original (unfilled) form, so every missing run interpolates between the
actual known neighbours. -/
def gapFillAux (before : List (ℚ × Option ℚ)) :
    List (ℚ × Option ℚ) → List (ℚ × Option ℚ)
  | [] => []
  | p :: rest =>
    (match p.2 with
     | some _ => p
     | none => (p.1, fillPoint before rest p.1)) :: gapFillAux (before ++ [p]) rest

/-- Modelled from the spec: "a short linear-interpolation-based gap-fill" —
every interior missing sample is replaced by the linear interpolation of
its nearest known neighbours (the spec states no numeric gap-length limit,
so none is modelled). -/
def gapFill (pts : List (ℚ × Option ℚ)) : List (ℚ × Option ℚ) :=
  gapFillAux [] pts

/-- Modelled from the spec: the one sensor whose series is gap-filled ("for
one sensor").  The spec does not name it; the merge script's upload prompt
suggests the optional weigh-feeder (WF) sensor. -/
def gapFillTag : String := "WF_Flow"

/-- Modelled from the spec: the per-tag display pipeline applies the
gap-fill to the designated sensor's series and leaves every other tag's
series untouched. -/
def seriesForTag (tag : String) (pts : List (ℚ × Option ℚ)) :
    List (ℚ × Option ℚ) :=
  if tag == gapFillTag then gapFill pts else pts

example :
    seriesForTag "WF_Flow" [((0 : ℚ), some 0), (1, none), (2, some 2)] =
      [((0 : ℚ), some 0), (1, some 1), (2, some 2)] := by
  simp [seriesForTag, gapFill, gapFillAux, fillPoint, lastKnown, firstKnown, lerpAt,
    gapFillTag]

/-! ## Derived forms and concrete fixtures -/

/-- The effect of the whole scaling loop on one row: at most one of the
three tag equalities holds, so the three sequential passes collapse to one
conditional division. -/
def scaleRow (r : Row) : Row :=
  if r.tagName = some "Feedrate" ∨ r.tagName = some "Setpoint" ∨
      r.tagName = some "Rolling_Avg" then
    { r with value := r.value / 1000 }
  else r

/-- A concrete good-quality feed-rate row. -/
def rowGood : Row :=
  { time := 1, tagGroup := some "G45", equipment := some "TT-01",
    tagName := some "Feedrate", value := 1200, quality := some "Good" }

/-- A concrete bad-quality feed-rate row, later in time. -/
def rowBad : Row :=
  { time := 2, tagGroup := some "G45", equipment := some "TT-01",
    tagName := some "Feedrate", value := 1300, quality := some "Bad" }

/-- A concrete selection that matches both rows, quality filter on. -/
def selQ : Selection :=
  { selGroup := ["G45"], selEquip := ["TT-01"], selTags := ["Feedrate"],
    startDt := 0, endDt := 10, qualityOkOnly := true }

/-- The same selection with the quality filter off. -/
def selNoQ : Selection :=
  { selQ with qualityOkOnly := false }

/-- A concrete stand-in for `pd.to_datetime(..., errors="coerce")`. -/
def parseTimeW : String → Option ℚ :=
  fun s => if s = "T0" then some 0 else if s = "T1" then some 1 else none

/-- A concrete stand-in for `pd.to_numeric(..., errors="coerce")`. -/
def parseNumW : String → Option ℚ :=
  fun s => if s = "100" then some 100 else none

/-- A concrete raw FactoryTalk row whose fields all parse. -/
def ftRow1 : FtRawRow :=
  { timeS := "T0", nameS := "Plant/Feedrate", valueS := "100",
    qualityS := some "Good" }

/-- The cleaned row `clean_csv` produces from `ftRow1`. -/
def mergeRow1 : MergeRow :=
  { time := some 0, name := "Plant/Feedrate", value := some 100,
    quality := some "Good", tag := "Feedrate" }

/-! ## Theorems -/

/-- C2: in Percent+MTPH overlay mode every tag gets exactly one y-axis, by
priority: a tag containing any of "PV", "CV", "OP", "Load", "Gate_Pos",
"Level", "Percent", "LSH", "LSL" goes to the left percent axis `y`;
otherwise a tag exactly equal to "Feedrate", "Setpoint" or "Rolling_Avg"
goes to the MTPH axis `y2`; otherwise a tag containing "Speed" goes to
`y3`; otherwise a tag containing "Current" goes to `y4`; otherwise the
default is `y2`.  (`is_percent_tag tag` is by definition the contains-check
over the nine keys, and `is_mtph tag` the exact membership in the three
feed tags.) -/
theorem axis_routing (tag : String) :
    (is_percent_tag tag = true → routeAxis tag = Axis.y) ∧
    (is_percent_tag tag = false → is_mtph tag = true → routeAxis tag = Axis.y2) ∧
    (is_percent_tag tag = false → is_mtph tag = false → is_speed tag = true →
      routeAxis tag = Axis.y3) ∧
    (is_percent_tag tag = false → is_mtph tag = false → is_speed tag = false →
      is_current tag = true → routeAxis tag = Axis.y4) ∧
    (is_percent_tag tag = false → is_mtph tag = false → is_speed tag = false →
      is_current tag = false → routeAxis tag = Axis.y2) := by
  refine ⟨fun h1 => ?_, fun h1 h2 => ?_, fun h1 h2 h3 => ?_,
    fun h1 h2 h3 h4 => ?_, fun h1 h2 h3 h4 => ?_⟩ <;>
    simp_all [routeAxis]

/-- Witness for C2 at one concrete tag of each class. -/
theorem axis_routing_witness :
    routeAxis "Gate_Pos_CMD" = Axis.y ∧ routeAxis "Feedrate" = Axis.y2 ∧
    routeAxis "Belt_Speed" = Axis.y3 ∧ routeAxis "Motor_Current" = Axis.y4 ∧
    routeAxis "Roll_Gap" = Axis.y2 :=
  ⟨(axis_routing "Gate_Pos_CMD").1 (by decide),
   (axis_routing "Feedrate").2.1 (by decide) (by decide),
   (axis_routing "Belt_Speed").2.2.1 (by decide) (by decide) (by decide),
   (axis_routing "Motor_Current").2.2.2.1 (by decide) (by decide) (by decide) (by decide),
   (axis_routing "Roll_Gap").2.2.2.2 (by decide) (by decide) (by decide) (by decide)⟩

/-- C3: with "Quality = Good only" checked and a `Quality` column present,
every row of the filtered frame has quality `"Good"`; with the box
unchecked the filter is exactly the base mask, keeping rows regardless of
their quality. -/
theorem quality_filter (hasQ : Bool) (sel : Selection) (df : List Row) :
    (sel.qualityOkOnly = true → hasQ = true →
      ∀ r ∈ filterFrame hasQ sel df, r.quality = some "Good") ∧
    (sel.qualityOkOnly = false →
      filterFrame hasQ sel df = df.filter (baseMask sel)) := by
  constructor
  · intro hq hcol r hr
    have hm := (List.mem_filter.mp hr).2
    rw [rowMask, hq, hcol] at hm
    simp only [Bool.and_self, if_true, Bool.and_eq_true, beq_iff_eq] at hm
    exact hm.2
  · intro hq
    apply List.filter_congr
    intro r _
    rw [rowMask, hq]
    simp

/-- Witness for C3 on a two-row frame holding one "Good" and one "Bad"
quality sample. -/
theorem quality_filter_witness :
    (∀ r ∈ filterFrame true selQ [rowGood, rowBad], r.quality = some "Good") ∧
    filterFrame true selNoQ [rowGood, rowBad] =
      List.filter (baseMask selNoQ) [rowGood, rowBad] :=
  ⟨(quality_filter true selQ [rowGood, rowBad]).1 rfl rfl,
   (quality_filter true selNoQ [rowGood, rowBad]).2 rfl⟩

/-- C9: a row with a missing (`NaN`) `Tag_Group`, `Equipment` or `Tag_Name`
never reaches the filtered frame, whatever the sidebar selection, because
`isin` matches no actual string against `NaN` (and the multiselect options
are built with `dropna()`, so no selection list contains `NaN`). -/
theorem filtered_rows_have_metadata (hasQ : Bool) (sel : Selection) (df : List Row)
    (r : Row) (hr : r ∈ filterFrame hasQ sel df) :
    r.tagGroup.isSome = true ∧ r.equipment.isSome = true ∧ r.tagName.isSome = true := by
  have hm := (List.mem_filter.mp hr).2
  rw [rowMask, baseMask] at hm
  simp only [Bool.and_eq_true] at hm
  obtain ⟨⟨⟨⟨⟨hg, he⟩, ht⟩, -⟩, -⟩, -⟩ := hm
  refine ⟨?_, ?_, ?_⟩
  · cases h : r.tagGroup with
    | none => rw [h] at hg; simp [isinOpt] at hg
    | some s => rfl
  · cases h : r.equipment with
    | none => rw [h] at he; simp [isinOpt] at he
    | some s => rfl
  · cases h : r.tagName with
    | none => rw [h] at ht; simp [isinOpt] at ht
    | some s => rfl

/-- Witness for C9 on a concrete filtered row. -/
theorem filtered_rows_have_metadata_witness :
    rowGood.tagGroup.isSome = true ∧ rowGood.equipment.isSome = true ∧
      rowGood.tagName.isSome = true :=
  filtered_rows_have_metadata true selQ [rowGood, rowBad] rowGood (by decide)

/-- C4 counterexample: `load_data` contains no try/except — a failed CSV
read is not caught and handled; at the concrete failing fetch (HTTP 500)
the load step yields no frame, refuting "the failure is caught and handled
by the program rather than propagating out of the load step". -/
theorem load_failure_not_handled :
    (load_data (Except.error (LoadError.httpError 500))).isOk = false := rfl

/-- C4 amended: the program has no failure-recovery logic at all — every
read failure propagates out of `load_data` unchanged, and a successful
read is sorted and returned. -/
theorem load_error_propagates (e : LoadError) :
    load_data (Except.error e) = Except.error e ∧
    ∀ df : List Row, load_data (Except.ok df) = Except.ok (sortByTime df) :=
  ⟨rfl, fun _ => rfl⟩

/-- C5 counterexample: no sidebar control of app.py is a resampling
control, refuting "the dashboard's sidebar filter widgets include a
resampling control". -/
theorem sidebar_has_no_resampler :
    sidebarWidgets.any isResampler = false := by decide

/-- C5 amended: the sidebar filter widgets are a date-range input, three
multiselects, the quality checkbox, the overlay-mode radio and the
percent-axis-lock checkbox — none is a resampling control — and every
trace plots the raw per-sample rows of its group, one point per row. -/
theorem sidebar_raw_series :
    (∀ w ∈ sidebarWidgets, isResampler w = false) ∧
    ∀ tag equip f, tracePoints tag equip f =
      (segRows tag equip f).map fun r => (r.time, r.value) := by
  refine ⟨fun w hw => ?_, fun tag equip f => rfl⟩
  fin_cases hw <;> rfl

/-- Witness for C5's amended statement at a concrete widget and group. -/
theorem sidebar_raw_series_witness :
    isResampler (Widget.dateInput "Date range") = false ∧
    tracePoints "Feedrate" "TT-01" [rowGood] =
      List.map (fun r => (r.time, r.value)) (segRows "Feedrate" "TT-01" [rowGood]) :=
  ⟨sidebar_raw_series.1 (Widget.dateInput "Date range") (by decide),
   sidebar_raw_series.2 "Feedrate" "TT-01" [rowGood]⟩

/-- A row's tag name equals at most one of the three feed tags, so the
three sequential passes of the scaling loop act on a row as the single
conditional `scaleRow`. -/
theorem scale_steps (r : Row) :
    (fun x => if x.tagName == some "Rolling_Avg" then { x with value := x.value / 1000 } else x)
      ((fun x => if x.tagName == some "Setpoint" then { x with value := x.value / 1000 } else x)
        ((fun x => if x.tagName == some "Feedrate" then { x with value := x.value / 1000 } else x)
          r)) = scaleRow r := by
  unfold scaleRow
  by_cases h1 : r.tagName = some "Feedrate" <;>
    by_cases h2 : r.tagName = some "Setpoint" <;>
      by_cases h3 : r.tagName = some "Rolling_Avg" <;>
        simp_all

/-- The scaling loop is the pointwise map of `scaleRow` over the frame. -/
theorem scaleMTPH_eq_map (f : List Row) : scaleMTPH f = f.map scaleRow := by
  simp only [scaleMTPH, mtphTags, List.foldl_cons, List.foldl_nil, scaleFor, List.map_map]
  congr 1
  funext r
  exact scale_steps r

/-- C1: for every row of the filtered frame whose `Tag_Name` is exactly
"Feedrate", "Setpoint" or "Rolling_Avg", the displayed value is the loaded
CSV value divided by 1000 (every other column unchanged); every row with
any other `Tag_Name` is left entirely unchanged.  The row `r` is a row of
the loaded frame `df` itself, so `r.value` is the loaded CSV value. -/
theorem mtph_scaling (df : List Row) (hasQ : Bool) (sel : Selection) (i : Nat) (r : Row)
    (h : (filterFrame hasQ sel df)[i]? = some r) :
    r ∈ df ∧
    ((r.tagName = some "Feedrate" ∨ r.tagName = some "Setpoint" ∨
        r.tagName = some "Rolling_Avg") →
      (applyScaling (filterFrame hasQ sel df))[i]? =
        some { r with value := r.value / 1000 }) ∧
    (¬(r.tagName = some "Feedrate" ∨ r.tagName = some "Setpoint" ∨
        r.tagName = some "Rolling_Avg") →
      (applyScaling (filterFrame hasQ sel df))[i]? = some r) := by
  have hmem : r ∈ filterFrame hasQ sel df := List.getElem?_mem h
  have hne : (filterFrame hasQ sel df).isEmpty = false := by
    cases hE : filterFrame hasQ sel df with
    | nil => rw [hE] at h; simp at h
    | cons a l => rfl
  have happ : applyScaling (filterFrame hasQ sel df) =
      (filterFrame hasQ sel df).map scaleRow := by
    rw [applyScaling, hne]
    simpa using scaleMTPH_eq_map _
  refine ⟨(List.mem_filter.mp hmem).1, ?_, ?_⟩
  · intro hc
    rw [happ, List.getElem?_map, h]
    simp [scaleRow, hc]
  · intro hc
    rw [happ, List.getElem?_map, h]
    simp [scaleRow, hc]

/-- Witness for C1 on a concrete one-row feed-rate frame. -/
theorem mtph_scaling_witness :
    rowGood ∈ ([rowGood] : List Row) ∧
    (applyScaling (filterFrame true selQ [rowGood]))[0]? =
      some { rowGood with value := rowGood.value / 1000 } := by
  have h := mtph_scaling [rowGood] true selQ 0 rowGood (by decide)
  exact ⟨h.1, h.2.1 (Or.inl rfl)⟩

/-- `re.split` always yields at least one piece. -/
theorem splitSegs_ne_nil (s : List Char) : splitSegs s ≠ [] := by
  cases s with
  | nil => simp [splitSegs]
  | cons c cs =>
    simp only [splitSegs]
    split
    · simp
    · split <;> simp

/-- A separator-free name splits into the single piece: itself. -/
theorem splitSegs_of_no_sep (s : List Char) (h : ∀ c ∈ s, isSepCh c = false) :
    splitSegs s = [s] := by
  induction s with
  | nil => rfl
  | cons c cs ih =>
    have hc : isSepCh c = false := h c (List.mem_cons_self c cs)
    have hcs : splitSegs cs = [cs] := ih fun d hd => h d (List.mem_cons_of_mem _ hd)
    simp [splitSegs, hcs, hc]

/-- `getLastD` of a nonempty list ignores the default. -/
theorem getLastD_of_ne_nil {α : Type} (l : List α) (hl : l ≠ []) (d d' : α) :
    l.getLastD d = l.getLastD d' := by
  cases l with
  | nil => exact absurd rfl hl
  | cons a l' => simp only [List.getLastD_cons]

/-- The last piece of the split of `pre ++ c :: post`, with `c` a separator
and `post` separator-free, is exactly `post`; such a split has at least two
pieces. -/
theorem splitSegs_getLastD_append (pre post : List Char) (c : Char)
    (hc : isSepCh c = true) (hpost : ∀ d ∈ post, isSepCh d = false) :
    (splitSegs (pre ++ c :: post)).getLastD [] = post ∧
    2 ≤ (splitSegs (pre ++ c :: post)).length := by
  induction pre with
  | nil =>
    simp [splitSegs, splitSegs_of_no_sep post hpost, hc, List.getLastD_cons]
  | cons x xs ih =>
    obtain ⟨h1, h2⟩ := ih
    cases hsp : splitSegs (xs ++ c :: post) with
    | nil => exact absurd hsp (splitSegs_ne_nil _)
    | cons s rest =>
      rw [hsp] at h1 h2
      have hrest : 0 < rest.length := by
        simp only [List.length_cons] at h2
        omega
      simp only [List.cons_append, splitSegs, List.append_eq, hsp]
      by_cases hx : isSepCh x = true
      · rw [if_pos hx]
        refine ⟨?_, by simp⟩
        rw [List.getLastD_cons]
        exact h1
      · rw [if_neg hx]
        constructor
        · rw [List.getLastD_cons]
          rw [List.getLastD_cons] at h1
          rw [getLastD_of_ne_nil rest (List.length_pos.mp hrest) (x :: s) s]
          exact h1
        · simp only [List.length_cons]
          omega

/-- C7: `clean_name` returns the piece of the name after the last `.` or
`/` separator, with surrounding whitespace stripped; a name containing no
separator is returned whole, stripped. -/
theorem clean_name_after_last_sep (pre post whole : List Char) (c : Char) :
    (isSepCh c = true → (∀ d ∈ post, isSepCh d = false) →
      clean_name ⟨pre ++ c :: post⟩ = ⟨stripWs post⟩) ∧
    ((∀ d ∈ whole, isSepCh d = false) → clean_name ⟨whole⟩ = ⟨stripWs whole⟩) := by
  constructor
  · intro hc hpost
    rw [clean_name]
    rw [show (String.mk (pre ++ c :: post)).data = pre ++ c :: post from rfl]
    rw [(splitSegs_getLastD_append pre post c hc hpost).1]
  · intro h
    rw [clean_name]
    rw [show (String.mk whole).data = whole from rfl]
    rw [splitSegs_of_no_sep whole h]
    rfl

/-- Witness for C7: a dotted-and-slashed name and a separator-free padded
name, both evaluated concretely. -/
theorem clean_name_after_last_sep_witness :
    clean_name "A.B/C" = "C" ∧ clean_name " Feedrate " = "Feedrate" := by
  constructor
  · have h := (clean_name_after_last_sep ['A', '.', 'B'] ['C'] [] '/').1 rfl (by decide)
    have e : "A.B/C" = (⟨['A', '.', 'B'] ++ '/' :: ['C']⟩ : String) := by decide
    rw [e, h]
    decide
  · have h := (clean_name_after_last_sep [] [] " Feedrate ".data 'x').2 (by decide)
    rw [h]
    decide

/-- C10: every row of the merge script's combined output has a
successfully parsed `Time` and a numeric `Value` — coercion failures
become `none` and `dropna(subset=['Time','Value'])` removes them before
concatenation, so no null survives into `combined`. -/
theorem combined_rows_parsed (parseTime parseNum : String → Option ℚ)
    (csvs : List (List FtRawRow)) (r : MergeRow)
    (hr : r ∈ combined parseTime parseNum csvs) :
    r.time.isSome = true ∧ r.value.isSome = true := by
  rw [combined] at hr
  have hr2 : r ∈ (csvs.map (clean_csv parseTime parseNum)).flatten :=
    (List.perm_insertionSort mergeTimeLE _).mem_iff.mp hr
  obtain ⟨l, hl, hrl⟩ := List.mem_flatten.mp hr2
  obtain ⟨csv, _, rfl⟩ := List.mem_map.mp hl
  have hcond := (List.mem_filter.mp hrl).2
  simpa [Bool.and_eq_true] using hcond

/-- Witness for C10 on one uploaded one-row CSV whose fields parse. -/
theorem combined_rows_parsed_witness :
    mergeRow1.time.isSome = true ∧ mergeRow1.value.isSome = true :=
  combined_rows_parsed parseTimeW parseNumW [[ftRow1]] mergeRow1 (by decide)

/-- `scaleRow` never touches the timestamp. -/
theorem scaleRow_time (r : Row) : (scaleRow r).time = r.time := by
  rw [scaleRow]
  split <;> rfl

/-- C8: the frame `load_data` returns is sorted by `Time` in non-decreasing
order (its index is the list position, freshly numbered 0, 1, …); the
filtered frame, the scaled frame and each plotted (tag, equipment) segment
keep that order; and the merge script's combined frame is likewise sorted
by `Time`. -/
theorem chronological_order (df : List Row) (hasQ : Bool) (sel : Selection)
    (tag equip : String) (parseTime parseNum : String → Option ℚ)
    (csvs : List (List FtRawRow)) :
    (∀ df', load_data (Except.ok df) = Except.ok df' → df'.Sorted timeLE) ∧
    (filterFrame hasQ sel (sortByTime df)).Sorted timeLE ∧
    (segRows tag equip (applyScaling (filterFrame hasQ sel (sortByTime df)))).Sorted
      timeLE ∧
    (combined parseTime parseNum csvs).Sorted mergeTimeLE := by
  have hsorted : (sortByTime df).Sorted timeLE := List.sorted_insertionSort timeLE df
  have hfilter : (filterFrame hasQ sel (sortByTime df)).Sorted timeLE :=
    List.Pairwise.sublist (List.filter_sublist _) hsorted
  have hscale : (applyScaling (filterFrame hasQ sel (sortByTime df))).Sorted timeLE := by
    rw [applyScaling]
    split
    · exact hfilter
    · rw [scaleMTPH_eq_map]
      refine List.pairwise_map.mpr (List.Pairwise.imp ?_ hfilter)
      intro a b hab
      simpa only [timeLE, scaleRow_time] using hab
  refine ⟨fun df' h => ?_, hfilter,
    List.Pairwise.sublist (List.filter_sublist _) hscale,
    List.sorted_insertionSort _ _⟩
  have hdf : sortByTime df = df' := by
    simpa [load_data] using h
  rw [← hdf]
  exact hsorted

/-- Witness for C8: sorting a concrete out-of-order two-row frame. -/
theorem chronological_order_witness :
    List.Sorted timeLE (sortByTime [rowBad, rowGood]) :=
  (chronological_order [rowBad, rowGood] true selQ "Feedrate" "TT-01" parseTimeW
    parseNumW []).1 (sortByTime [rowBad, rowGood]) rfl

/-- Indexing `gapFillAux` at a missing sample: the fill interpolates
between the last known sample before it and the first known sample after
it. -/
theorem gapFillAux_getElem_missing (b pre after : List (ℚ × Option ℚ)) (t : ℚ) :
    (gapFillAux b (pre ++ (t, none) :: after))[pre.length]? =
      some (t, fillPoint (b ++ pre) after t) := by
  induction pre generalizing b with
  | nil => simp [gapFillAux]
  | cons p pre ih =>
    simp only [List.cons_append, gapFillAux, List.append_eq, List.length_cons,
      List.getElem?_cons_succ]
    rw [ih (b ++ [p]), List.append_assoc]
    rfl

/-- `gapFillAux` leaves every known sample unchanged. -/
theorem gapFillAux_getElem_known (b pts : List (ℚ × Option ℚ)) (i : Nat) (t v : ℚ)
    (h : pts[i]? = some (t, some v)) :
    (gapFillAux b pts)[i]? = some (t, some v) := by
  induction pts generalizing b i with
  | nil => simp at h
  | cons p rest ih =>
    cases i with
    | zero =>
      simp only [List.getElem?_cons_zero, Option.some.injEq] at h
      subst h
      simp [gapFillAux]
    | succ n =>
      simp only [List.getElem?_cons_succ] at h
      simp only [gapFillAux, List.getElem?_cons_succ]
      exact ih (b ++ [p]) n h

/-- C6 (modelled from the spec — the gap-fill code lives in a repository
file outside `src/`): the display pipeline gap-fills exactly one tag —
every other tag's series passes through untouched — and on that tag an
interior missing sample, with a known sample on each side, is replaced by
the linear interpolation between those neighbours, while known samples are
never altered. -/
theorem gap_fill_one_sensor :
    (∀ tag, tag ≠ gapFillTag → ∀ pts, seriesForTag tag pts = pts) ∧
    (∀ (before after : List (ℚ × Option ℚ)) (t t0 v0 t1 v1 : ℚ),
      lastKnown before = some (t0, v0) →
      firstKnown after = some (t1, v1) →
      (seriesForTag gapFillTag (before ++ (t, none) :: after))[before.length]? =
        some (t, some (v0 + (v1 - v0) * (t - t0) / (t1 - t0)))) ∧
    (∀ (pts : List (ℚ × Option ℚ)) (i : Nat) (t v : ℚ),
      pts[i]? = some (t, some v) →
      (seriesForTag gapFillTag pts)[i]? = some (t, some v)) := by
  refine ⟨fun tag htag pts => ?_, fun before after t t0 v0 t1 v1 hl hf => ?_,
    fun pts i t v h => ?_⟩
  · simp [seriesForTag, htag]
  · simp only [seriesForTag, beq_self_eq_true, if_true, gapFill]
    rw [gapFillAux_getElem_missing [] before after t]
    simp only [List.nil_append]
    rw [fillPoint, hl, hf]
    rfl
  · simp only [seriesForTag, beq_self_eq_true, if_true, gapFill]
    exact gapFillAux_getElem_known [] pts i t v h

/-- Witness for C6: an untouched foreign tag and a concrete interpolated
gap for the gap-filled sensor. -/
theorem gap_fill_one_sensor_witness :
    seriesForTag "Feedrate" [((3 : ℚ), none)] = [((3 : ℚ), none)] ∧
    (seriesForTag gapFillTag [((0 : ℚ), some 0), (1, none), (2, some 2)])[1]? =
      some (1, some (0 + (2 - 0) * (1 - 0) / (2 - 0))) :=
  ⟨gap_fill_one_sensor.1 "Feedrate" (by decide) [((3 : ℚ), none)],
   gap_fill_one_sensor.2.1 [((0 : ℚ), some 0)] [((2 : ℚ), some 2)] 1 0 0 2 2 rfl rfl⟩
